import Mathlib

/-!
Shallow embedding of quickwit-index/src/actors/indexer.rs: the `Indexer`
actor, its counters, the per-batch processing loop, the lazy split creation
and the deadline-driven flush to the downstream packager sink.

Machine integers (`u64`) are modelled as `Nat` with wrap-around modulo
`2 ^ 64` where the source performs arithmetic; `i64` timestamp values, on
which the source only performs `min`/`max`, are modelled as `Int`.
`Instant`/`Duration` are modelled as `Nat` ticks.  Fallible operations
return `Except`.  The parts of the crate that indexer.rs consumes but that
are not under src/ (`crate::models::IndexedSplit`, the tantivy writer, the
actor mailbox) are modelled from the spec, as noted on each definition.
-/

namespace Quickwit

/-- Opaque tantivy schema field identifier (`tantivy::schema::Field`). -/
abbrev Field := Nat

/-- A tantivy field value, seen through the source's only accessor on it:
`i64_value()`, which yields the value when it is an i64. -/
structure TValue where
  i64_value : Option Int
deriving DecidableEq, Repr

/-- A parsed tantivy `Document`: an ordered list of field-value pairs. -/
structure Document where
  fields : List (Field × TValue)
deriving DecidableEq, Repr

/-- `doc.get_first(field)`: first value stored for the field, if any. -/
def Document.get_first (doc : Document) (field : Field) : Option TValue :=
  (doc.fields.find? (fun p => p.1 == field)).map Prod.snd

/-- `extract_timestamp` (indexer.rs lines 89-93): chase the optional
timestamp field, the document's first value there, and its i64 payload. -/
def extract_timestamp (doc : Document) (timestamp_field_opt : Option Field) :
    Option Int := do
  let timestamp_field ← timestamp_field_opt
  let timestamp_value ← doc.get_first timestamp_field
  timestamp_value.i64_value

/-- The index-configuration capability as consumed by the indexer:
`doc_from_json` parses one raw JSON payload into a document or a parse
error, and `timestamp_field` designates the optional timestamp field. -/
structure IndexConfig where
  doc_from_json : String → Except String Document
  timestamp_field : Option Field

/-- `IndexerCounters` (indexer.rs lines 42-46): the observable state. -/
structure IndexerCounters where
  parse_error : Nat
  docs : Nat
deriving DecidableEq, Repr

/-- u64 addition: wraps modulo `2 ^ 64`. -/
def u64add (a b : Nat) : Nat := (a + b) % 2 ^ 64

/-- Modelled from the spec: `crate::models::IndexedSplit` is not under src/.
Per spec section 3, it owns the segment writer (modelled as the ordered list
of documents the writer accepted), the running `size_in_bytes` (u64) and an
optional inclusive time range. -/
structure IndexedSplit where
  index_id : String
  index_writer : List Document
  size_in_bytes : Nat
  time_range : Option (Int × Int)
deriving DecidableEq, Repr

/-- Modelled from the spec: `IndexedSplit::new_in_dir` allocates a fresh
split with an empty writer, zero size and no time range (spec section 4.2);
whether the writer initialization succeeds is decided by the environment. -/
def IndexedSplit.new_in_dir (index_id : String) : IndexedSplit :=
  { index_id := index_id, index_writer := [], size_in_bytes := 0,
    time_range := none }

/-- The effectful environment of one `process_message` call: the wall clock
(`Instant::now()`), whether `IndexedSplit::new_in_dir` succeeds, whether the
downstream sink is disconnected (so that `send_blocking` fails), and which
documents the writer's `add_document` reports a failure for (the writer is
external; its fallibility is modelled from spec section 4.2). -/
structure Env where
  now : Nat
  create_split_ok : Bool
  sink_closed : Bool
  writer_failsOn : Document → Bool

/-- Modelled from the spec: the writer's `add_document` appends a structured
document and may report a writer-level error (spec section 4.2).  Returns
the updated writer and the append result; the document is recorded exactly
when the append succeeds. -/
def add_document (env : Env) (writer : List Document) (doc : Document) :
    List Document × Except String Unit :=
  if env.writer_failsOn doc then (writer, Except.error "writer append failure")
  else (writer ++ [doc], Except.ok ())

/-- `RawDocBatch` (crate::models): an ordered sequence of raw payloads. -/
structure RawDocBatch where
  docs : List String

/-- The `Indexer` actor state (indexer.rs lines 66-77).  The scratch
directory is irrelevant to the control flow and is elided. -/
structure Indexer where
  index_id : String
  index_config : IndexConfig
  commit_timeout : Nat
  next_commit_deadline_opt : Option Nat
  current_split_opt : Option IndexedSplit
  counters : IndexerCounters
  timestamp_field_opt : Option Field

/-- `Indexer::try_new` (indexer.rs lines 146-170): initial state — default
counters, no deadline, no split, timestamp field read off the config. -/
def Indexer.try_new (index_id : String) (index_config : IndexConfig)
    (commit_timeout : Nat) : Indexer :=
  { index_id := index_id, index_config := index_config,
    commit_timeout := commit_timeout,
    next_commit_deadline_opt := none,
    counters := { parse_error := 0, docs := 0 },
    current_split_opt := none,
    timestamp_field_opt := index_config.timestamp_field }

/-- `Indexer::create_indexed_split` (indexer.rs lines 172-180): build a
fresh `IndexedSplit`; `IndexedSplit::new_in_dir` may fail, which the
environment decides. -/
def Indexer.create_indexed_split (idx : Indexer) (env : Env) :
    Except String IndexedSplit :=
  if env.create_split_ok then Except.ok (IndexedSplit.new_in_dir idx.index_id)
  else Except.error "split writer initialization failed"

/-- `Indexer::indexed_split` (indexer.rs lines 182-192): lazily create the
current split, arming the commit deadline at creation time; on success the
returned state has a populated `current_split_opt`. -/
def Indexer.indexed_split (idx : Indexer) (env : Env) :
    Except String Indexer :=
  if idx.current_split_opt.isNone then
    match idx.create_indexed_split env with
    | Except.error e => Except.error e
    | Except.ok new_indexed_split =>
      Except.ok { idx with
        current_split_opt := some new_indexed_split,
        next_commit_deadline_opt := some (env.now + idx.commit_timeout) }
  else Except.ok idx

/-- `Indexer::send_to_packager` (indexer.rs lines 194-202): take the current
split out of the state (a no-op returning Ok when none exists) and send it
through the blocking sink; a `SendError` results when the sink is
disconnected.  The middle component lists the splits actually delivered to
the sink.  Note: the deadline is NOT touched here, exactly as in the
source. -/
def Indexer.send_to_packager (idx : Indexer) (env : Env) :
    Indexer × List IndexedSplit × Except String Unit :=
  match idx.current_split_opt with
  | none => (idx, [], Except.ok ())
  | some indexed_split =>
    let idx2 := { idx with current_split_opt := none }
    if env.sink_closed then (idx2, [], Except.error "SendError")
    else (idx2, [indexed_split], Except.ok ())

/-- The time-range merge of `process_message` (indexer.rs lines 116-123):
widen the current optional range with one observed timestamp. -/
def tsUpdate (time_range : Option (Int × Int)) (timestamp : Int) :
    Option (Int × Int) :=
  match time_range with
  | some range => some (min timestamp range.1, max timestamp range.2)
  | none => some (timestamp, timestamp)

/-- One iteration of the per-document loop of `process_message` (indexer.rs
lines 104-126): add the raw payload size unconditionally, parse the
document, on parse error only `warn!` and continue (the counters are NOT
touched — line 110 carries a TODO about that), widen the time range when a
timestamp is extracted, then hand the document to the writer, discarding
the append result exactly as line 125 does. -/
def processDoc (index_config : IndexConfig) (timestamp_field_opt : Option Field)
    (env : Env) (split : IndexedSplit) (doc_json : String) : IndexedSplit :=
  let split1 := { split with
    size_in_bytes := u64add split.size_in_bytes doc_json.utf8ByteSize }
  match index_config.doc_from_json doc_json with
  | Except.error _ => split1
  | Except.ok doc =>
    let split2 :=
      match extract_timestamp doc timestamp_field_opt with
      | some timestamp =>
        { split1 with time_range := tsUpdate split1.time_range timestamp }
      | none => split1
    { split2 with index_writer := (add_document env split2.index_writer doc).1 }

/-- Outcome of one `process_message` call: the updated actor state, the
splits handed to the downstream sink during the call, and the `Result`. -/
structure StepOut where
  indexer : Indexer
  sent : List IndexedSplit
  result : Except String Unit

/-- The deadline check at the end of `process_message` (indexer.rs lines
131-138): flush via `send_to_packager` when a deadline is armed and has
elapsed; the `else` branch reassigns `None` to an already-`None` deadline,
exactly as the source does. -/
def commitIfDeadline (idx : Indexer) (env : Env) : StepOut :=
  match idx.next_commit_deadline_opt with
  | some deadline =>
    if env.now ≥ deadline then
      let r := idx.send_to_packager env
      { indexer := r.1, sent := r.2.1, result := r.2.2 }
    else { indexer := idx, sent := [], result := Except.ok () }
  | none =>
    { indexer := { idx with next_commit_deadline_opt := none }, sent := [],
      result := Except.ok () }

/-- `Indexer::process_message` (indexer.rs lines 96-140): obtain (or lazily
create) the current split, run the per-document loop, then flush if the
armed deadline has elapsed. -/
def Indexer.process_message (idx : Indexer) (env : Env) (batch : RawDocBatch) :
    StepOut :=
  match idx.indexed_split env with
  | Except.error e => { indexer := idx, sent := [], result := Except.error e }
  | Except.ok idx1 =>
    match idx1.current_split_opt with
    | none =>
      { indexer := idx1, sent := [],
        result := Except.error "No index writer available" }
    | some split0 =>
      let split :=
        batch.docs.foldl
          (processDoc idx.index_config idx.timestamp_field_opt env) split0
      commitIfDeadline { idx1 with current_split_opt := some split } env

/-- The timestamp the loop observes for one raw payload: present exactly
when the payload parses and `extract_timestamp` yields a value. -/
def docTimestamp (index_config : IndexConfig)
    (timestamp_field_opt : Option Field) (doc_json : String) : Option Int :=
  match index_config.doc_from_json doc_json with
  | Except.error _ => none
  | Except.ok doc => extract_timestamp doc timestamp_field_opt

/-- A sample index configuration used to exercise the model on concrete
inputs: the payload "bad" is a parse error; any other payload parses into a
document carrying the payload's byte length as the value of field 0 (the
designated timestamp field). -/
def sampleCfg : IndexConfig where
  doc_from_json doc_json :=
    if doc_json = "bad" then Except.error "invalid json document"
    else Except.ok
      { fields := [(0, { i64_value := some (Int.ofNat doc_json.utf8ByteSize) })] }
  timestamp_field := some 0

/-- A sample benign environment: clock at 0, split creation succeeds, sink
open, writer never fails. -/
def benignEnv : Env :=
  { now := 0, create_split_ok := true, sink_closed := false,
    writer_failsOn := fun _ => false }

/-! ## Basic lemmas about the per-document loop -/

lemma processDoc_size (cfg : IndexConfig) (tsf : Option Field) (env : Env)
    (s : IndexedSplit) (d : String) :
    (processDoc cfg tsf env s d).size_in_bytes =
      u64add s.size_in_bytes d.utf8ByteSize := by
  simp only [processDoc]
  split
  · rfl
  · split <;> rfl

lemma processDoc_time_range (cfg : IndexConfig) (tsf : Option Field)
    (env : Env) (s : IndexedSplit) (d : String) :
    (processDoc cfg tsf env s d).time_range =
      match docTimestamp cfg tsf d with
      | some ts => tsUpdate s.time_range ts
      | none => s.time_range := by
  simp only [processDoc, docTimestamp]
  split
  · rfl
  · split <;> rfl

lemma foldl_processDoc_size (cfg : IndexConfig) (tsf : Option Field)
    (env : Env) :
    ∀ (docs : List String) (s : IndexedSplit), s.size_in_bytes < 2 ^ 64 →
      (docs.foldl (processDoc cfg tsf env) s).size_in_bytes =
        (s.size_in_bytes + (docs.map String.utf8ByteSize).sum) % 2 ^ 64 := by
  intro docs
  induction docs with
  | nil =>
    intro s hs
    simpa using (Nat.mod_eq_of_lt hs).symm
  | cons d ds ih =>
    intro s hs
    have hstep := processDoc_size cfg tsf env s d
    have hlt : (processDoc cfg tsf env s d).size_in_bytes < 2 ^ 64 := by
      rw [hstep]; exact Nat.mod_lt _ (by norm_num)
    calc ((d :: ds).foldl (processDoc cfg tsf env) s).size_in_bytes
        = ((processDoc cfg tsf env s d).size_in_bytes
            + (ds.map String.utf8ByteSize).sum) % 2 ^ 64 := by
          simpa using ih (processDoc cfg tsf env s d) hlt
      _ = (s.size_in_bytes + ((d :: ds).map String.utf8ByteSize).sum) % 2 ^ 64 := by
          rw [hstep]
          unfold u64add
          simp only [List.map_cons, List.sum_cons]
          omega

lemma foldl_loop_time_range (cfg : IndexConfig) (tsf : Option Field)
    (env : Env) :
    ∀ (docs : List String) (s : IndexedSplit),
      (docs.foldl (processDoc cfg tsf env) s).time_range =
        (docs.filterMap (docTimestamp cfg tsf)).foldl tsUpdate s.time_range := by
  intro docs
  induction docs with
  | nil => intro s; rfl
  | cons d ds ih =>
    intro s
    rw [List.foldl_cons, List.filterMap_cons, ih (processDoc cfg tsf env s d),
      processDoc_time_range]
    cases docTimestamp cfg tsf d <;> simp

/-! ## Lemmas about the time-range merge -/

lemma foldl_tsUpdate_some (l : List Int) :
    ∀ lo hi : Int, l.foldl tsUpdate (some (lo, hi)) =
      some (l.foldl min lo, l.foldl max hi) := by
  induction l with
  | nil => intro lo hi; rfl
  | cons t rest ih =>
    intro lo hi
    simp only [List.foldl_cons, tsUpdate, ih]
    rw [min_comm t lo, max_comm t hi]

lemma foldl_tsUpdate_none_cons (t : Int) (rest : List Int) :
    (t :: rest).foldl tsUpdate none =
      some (rest.foldl min t, rest.foldl max t) := by
  rw [List.foldl_cons]
  exact foldl_tsUpdate_some rest t t

lemma tsUpdate_right_comm (z : Option (Int × Int)) (x y : Int) :
    tsUpdate (tsUpdate z x) y = tsUpdate (tsUpdate z y) x := by
  cases z with
  | none =>
    simp only [tsUpdate]
    rw [min_comm, max_comm]
  | some r =>
    simp only [tsUpdate]
    rw [min_left_comm, max_left_comm]

/-! ## Lemmas about lazy split creation, flush and the deadline check -/

lemma indexed_split_of_isSome (idx : Indexer) (env : Env)
    (h : idx.current_split_opt.isSome) :
    idx.indexed_split env = Except.ok idx := by
  unfold Indexer.indexed_split
  rw [if_neg]
  cases hc : idx.current_split_opt with
  | none => rw [hc] at h; simp at h
  | some s => simp [hc]

lemma indexed_split_ok_cases (idx : Indexer) (env : Env) (idx1 : Indexer)
    (h : idx.indexed_split env = Except.ok idx1) :
    idx1 = idx ∨
      idx1 = { idx with
        current_split_opt := some (IndexedSplit.new_in_dir idx.index_id),
        next_commit_deadline_opt := some (env.now + idx.commit_timeout) } := by
  unfold Indexer.indexed_split at h
  split at h
  · by_cases hc : env.create_split_ok = true
    · rw [Indexer.create_indexed_split, if_pos hc] at h
      cases h
      right
      rfl
    · rw [Indexer.create_indexed_split, if_neg hc] at h
      cases h
  · left
    cases h
    rfl

lemma indexed_split_ok_isSome (idx : Indexer) (env : Env) (idx1 : Indexer)
    (h : idx.indexed_split env = Except.ok idx1)
    (hn : idx.current_split_opt.isNone) :
    idx1.current_split_opt.isSome := by
  unfold Indexer.indexed_split at h
  rw [if_pos hn] at h
  cases hc : idx.create_indexed_split env with
  | error e => rw [hc] at h; cases h
  | ok s =>
    rw [hc] at h
    cases h
    rfl

lemma indexed_split_err (idx : Indexer) (env : Env)
    (hn : idx.current_split_opt = none)
    (hc : env.create_split_ok = false) :
    idx.indexed_split env =
      Except.error "split writer initialization failed" := by
  unfold Indexer.indexed_split Indexer.create_indexed_split
  rw [hn]
  simp [hc]

lemma send_to_packager_counters (idx : Indexer) (env : Env) :
    (idx.send_to_packager env).1.counters = idx.counters := by
  unfold Indexer.send_to_packager
  cases idx.current_split_opt with
  | none => rfl
  | some s =>
    by_cases hc : env.sink_closed <;> simp [hc]

lemma send_to_packager_deadline (idx : Indexer) (env : Env) :
    (idx.send_to_packager env).1.next_commit_deadline_opt =
      idx.next_commit_deadline_opt := by
  unfold Indexer.send_to_packager
  cases idx.current_split_opt with
  | none => rfl
  | some s =>
    by_cases hc : env.sink_closed <;> simp [hc]

lemma commitIfDeadline_counters (idx : Indexer) (env : Env) :
    (commitIfDeadline idx env).indexer.counters = idx.counters := by
  unfold commitIfDeadline
  cases idx.next_commit_deadline_opt with
  | none => rfl
  | some deadline =>
    by_cases hd : env.now ≥ deadline
    · simpa [hd] using send_to_packager_counters idx env
    · simp [hd]

/-! ## Claim theorems -/

/-- Claim C1 (code bug): the spec says a parse failure increments the
`parse_error` counter, but `process_message` never touches the counters at
all — every call leaves `counters` exactly as it found them, whatever the
batch contains (indexer.rs line 110 even carries a TODO admitting the
counter is not kept).  So a batch with `k` malformed documents leaves
`parse_error` unchanged instead of incrementing it by `k`. -/
theorem counters_unchanged_by_process_message (idx : Indexer) (env : Env)
    (batch : RawDocBatch) :
    (idx.process_message env batch).indexer.counters = idx.counters := by
  cases h : idx.indexed_split env with
  | error e => simp [Indexer.process_message, h]
  | ok idx1 =>
    have hc : idx1.counters = idx.counters := by
      rcases indexed_split_ok_cases idx env idx1 h with h1 | h1 <;> rw [h1]
    cases h2 : idx1.current_split_opt with
    | none => simp [Indexer.process_message, h, h2, hc]
    | some split0 =>
      simp only [Indexer.process_message, h, h2]
      rw [commitIfDeadline_counters]
      exact hc

/-- Claim C2 (code bug): the spec says a batch of well-formed documents
increments the `docs` counter by the batch size; the code never increments
it.  Concretely: from the initial state, a batch of two documents that both
parse successfully under `sampleCfg` leaves `docs = 0` (and
`parse_error = 0`). -/
theorem docs_counter_not_incremented :
    ((Indexer.try_new "my-index" sampleCfg 10).process_message benignEnv
        ⟨["ab", "c"]⟩).indexer.counters = { parse_error := 0, docs := 0 }
    ∧ sampleCfg.doc_from_json "ab" =
        Except.ok { fields := [(0, { i64_value := some 2 })] }
    ∧ sampleCfg.doc_from_json "c" =
        Except.ok { fields := [(0, { i64_value := some 1 })] } :=
  ⟨by decide, rfl, rfl⟩

/-- Claim C8: `send_to_packager` with no current split is a no-op — it
returns Ok, delivers nothing to the sink, and leaves the state untouched
(indexer.rs lines 195-199). -/
theorem flush_no_split_noop (idx : Indexer) (env : Env)
    (h : idx.current_split_opt = none) :
    idx.send_to_packager env = (idx, [], Except.ok ()) := by
  unfold Indexer.send_to_packager
  rw [h]

/-- Witness for C8: the freshly constructed indexer has no split, and
flushing it is a no-op. -/
theorem flush_no_split_noop_witness :
    (Indexer.try_new "my-index" sampleCfg 10).send_to_packager benignEnv
      = (Indexer.try_new "my-index" sampleCfg 10, [], Except.ok ()) :=
  flush_no_split_noop (Indexer.try_new "my-index" sampleCfg 10) benignEnv rfl

/-- Claim C10: if the lazy split creation fails while no split exists, the
error propagates out of `process_message` and the state is untouched —
`current_split_opt` is still `none`, the deadline and the counters are
whatever they were (indexer.rs lines 182-187: the `?` fires before any
assignment). -/
theorem create_failure_atomic (idx : Indexer) (env : Env)
    (batch : RawDocBatch) (h : idx.current_split_opt = none)
    (hc : env.create_split_ok = false) :
    (idx.process_message env batch).indexer = idx
    ∧ (idx.process_message env batch).sent = []
    ∧ ∃ e, (idx.process_message env batch).result = Except.error e := by
  have h1 := indexed_split_err idx env h hc
  refine ⟨?_, ?_, ?_⟩ <;> simp [Indexer.process_message, h1]

/-- Witness for C10: from the initial state with a failing split
constructor, processing a batch errors and changes nothing. -/
theorem create_failure_atomic_witness :
    ((Indexer.try_new "my-index" sampleCfg 10).process_message
        { benignEnv with create_split_ok := false } ⟨["ab"]⟩).indexer
      = Indexer.try_new "my-index" sampleCfg 10
    ∧ ((Indexer.try_new "my-index" sampleCfg 10).process_message
        { benignEnv with create_split_ok := false } ⟨["ab"]⟩).sent = []
    ∧ ∃ e, ((Indexer.try_new "my-index" sampleCfg 10).process_message
        { benignEnv with create_split_ok := false } ⟨["ab"]⟩).result
          = Except.error e :=
  create_failure_atomic (Indexer.try_new "my-index" sampleCfg 10)
    { benignEnv with create_split_ok := false } ⟨["ab"]⟩ rfl rfl

/-- Claim C3 (code bug): the spec invariant says `next_commit_deadline` is
`Some` iff `current_split` is `Some`, with a flush clearing both.  But
`send_to_packager` never clears the deadline (the only write of `None` to it
is the dead `else` branch on indexer.rs line 137, which runs precisely when
it is already `None`).  Concretely: with `commit_timeout = 0`, one call of
`process_message` from the initial state flushes the split downstream yet
leaves the stale deadline armed — a reachable state with
`current_split = None` and `next_commit_deadline = Some`. -/
theorem deadline_not_cleared_on_flush :
    ((Indexer.try_new "my-index" sampleCfg 0).process_message
        { benignEnv with now := 5 } ⟨["ab"]⟩).indexer.current_split_opt = none
    ∧ ((Indexer.try_new "my-index" sampleCfg 0).process_message
        { benignEnv with now := 5 } ⟨["ab"]⟩).indexer.next_commit_deadline_opt
        = some 5
    ∧ ((Indexer.try_new "my-index" sampleCfg 0).process_message
        { benignEnv with now := 5 } ⟨["ab"]⟩).sent.length = 1 := by
  refine ⟨by decide, by decide, by decide⟩

/-- Counterexample to C4 as stated: processing a batch with ZERO documents
while Idle does not leave the stage Idle — `process_message` calls
`indexed_split` before iterating (indexer.rs line 103), so the split is
created and the deadline armed as soon as any batch arrives, documents or
not. -/
theorem empty_batch_creates_split :
    ((Indexer.try_new "my-index" sampleCfg 10).process_message benignEnv
        ⟨[]⟩).indexer.current_split_opt.isSome = true
    ∧ ((Indexer.try_new "my-index" sampleCfg 10).process_message benignEnv
        ⟨[]⟩).indexer.next_commit_deadline_opt = some 10 := by
  refine ⟨by decide, by decide⟩

/-- Claim C4 as amended: while Idle no split and no deadline exist until the
first BATCH of a new accumulation cycle arrives; processing any batch while
Idle — even one containing zero documents — creates the split and arms the
deadline (`now + commit_timeout`).  (Shown here for a deadline that has not
already elapsed; with an elapsed deadline the same call also flushes.) -/
theorem idle_split_created_per_batch :
    (∀ (i : String) (cfg : IndexConfig) (t : Nat),
      (Indexer.try_new i cfg t).current_split_opt = none
      ∧ (Indexer.try_new i cfg t).next_commit_deadline_opt = none)
    ∧ ∀ (idx : Indexer) (env : Env) (batch : RawDocBatch),
        idx.current_split_opt = none → env.create_split_ok = true →
        0 < idx.commit_timeout →
        (idx.process_message env batch).indexer.current_split_opt.isSome = true
        ∧ (idx.process_message env batch).indexer.next_commit_deadline_opt
            = some (env.now + idx.commit_timeout) := by
  constructor
  · intro i cfg t
    exact ⟨rfl, rfl⟩
  · intro idx env batch h hc ht
    have h1 : idx.indexed_split env = Except.ok { idx with
        current_split_opt := some (IndexedSplit.new_in_dir idx.index_id),
        next_commit_deadline_opt := some (env.now + idx.commit_timeout) } := by
      unfold Indexer.indexed_split Indexer.create_indexed_split
      rw [h]
      simp [hc]
    have hnd : ¬ env.now ≥ env.now + idx.commit_timeout := by omega
    simp only [Indexer.process_message, h1]
    simp only [commitIfDeadline]
    simp [hnd]

/-- Witness for the amended C4: the initial state is Idle, and processing an
empty batch from it creates a split and arms the deadline at 10. -/
theorem idle_split_created_per_batch_witness :
    (Indexer.try_new "my-index" sampleCfg 10).current_split_opt = none
    ∧ ((Indexer.try_new "my-index" sampleCfg 10).process_message benignEnv
        ⟨[]⟩).indexer.current_split_opt.isSome = true
    ∧ ((Indexer.try_new "my-index" sampleCfg 10).process_message benignEnv
        ⟨[]⟩).indexer.next_commit_deadline_opt = some 10 :=
  ⟨(idle_split_created_per_batch.1 "my-index" sampleCfg 10).1,
   (idle_split_created_per_batch.2 (Indexer.try_new "my-index" sampleCfg 10)
      benignEnv ⟨[]⟩ rfl rfl (by decide)).1,
   (idle_split_created_per_batch.2 (Indexer.try_new "my-index" sampleCfg 10)
      benignEnv ⟨[]⟩ rfl rfl (by decide)).2⟩

/-- Claim C5 (code bug): the spec requires a writer append failure to
propagate as a fatal error, but indexer.rs line 125 discards the result of
`add_document` outright.  With a writer that fails every append, processing
a batch with one well-formed document still returns Ok, the document is not
in the writer, and processing simply continued (the raw size was counted and
the timestamp observed). -/
theorem append_failure_swallowed :
    ((Indexer.try_new "my-index" sampleCfg 10).process_message
        { benignEnv with writer_failsOn := fun _ => true } ⟨["abc"]⟩).result
      = Except.ok ()
    ∧ (((Indexer.try_new "my-index" sampleCfg 10).process_message
        { benignEnv with writer_failsOn := fun _ => true }
        ⟨["abc"]⟩).indexer.current_split_opt.map IndexedSplit.index_writer)
      = some []
    ∧ (((Indexer.try_new "my-index" sampleCfg 10).process_message
        { benignEnv with writer_failsOn := fun _ => true }
        ⟨["abc"]⟩).indexer.current_split_opt.map IndexedSplit.size_in_bytes)
      = some 3
    ∧ (((Indexer.try_new "my-index" sampleCfg 10).process_message
        { benignEnv with writer_failsOn := fun _ => true }
        ⟨["abc"]⟩).indexer.current_split_opt.map IndexedSplit.time_range)
      = some (some (3, 3)) := by
  refine ⟨by rfl, by decide, by decide, by decide⟩

/-- Claim C6: over one split's lifetime the per-document loop makes
`time_range` exactly the inclusive `[min, max]` of the observed timestamps:
it stays `none` while no timestamp is observed, equals
`some (min, max)` of the observed sequence otherwise, is invariant under
reordering of the batch, and each single update only ever widens an
existing range. -/
theorem time_range_is_min_max (cfg : IndexConfig) (tsf : Option Field)
    (env : Env) (split0 : IndexedSplit) (docs : List String)
    (h0 : split0.time_range = none) :
    ((docs.filterMap (docTimestamp cfg tsf)) = [] →
      (docs.foldl (processDoc cfg tsf env) split0).time_range = none)
    ∧ (∀ lo hi : Int,
        (docs.filterMap (docTimestamp cfg tsf)).min? = some lo →
        (docs.filterMap (docTimestamp cfg tsf)).max? = some hi →
        (docs.foldl (processDoc cfg tsf env) split0).time_range
          = some (lo, hi))
    ∧ (∀ docs' : List String, docs.Perm docs' →
        (docs.foldl (processDoc cfg tsf env) split0).time_range =
          (docs'.foldl (processDoc cfg tsf env) split0).time_range)
    ∧ (∀ (s : IndexedSplit) (d : String) (lo hi : Int),
        s.time_range = some (lo, hi) →
        ∃ lo' hi', (processDoc cfg tsf env s d).time_range = some (lo', hi')
          ∧ lo' ≤ lo ∧ hi ≤ hi') := by
  have key : ∀ ds : List String,
      (ds.foldl (processDoc cfg tsf env) split0).time_range =
        (ds.filterMap (docTimestamp cfg tsf)).foldl tsUpdate none := by
    intro ds
    rw [foldl_loop_time_range, h0]
  refine ⟨?_, ?_, ?_, ?_⟩
  · intro hl
    rw [key, hl]
    rfl
  · intro lo hi hmin hmax
    rw [key]
    cases hL : docs.filterMap (docTimestamp cfg tsf) with
    | nil =>
      rw [hL] at hmin
      cases hmin
    | cons t rest =>
      rw [hL] at hmin hmax
      have hlo : rest.foldl min t = lo := by
        simpa [List.min?] using hmin
      have hhi : rest.foldl max t = hi := by
        simpa [List.max?] using hmax
      rw [foldl_tsUpdate_none_cons, hlo, hhi]
  · intro docs' hp
    rw [key, key]
    exact (hp.filterMap (docTimestamp cfg tsf)).foldl_eq'
      (fun x _ y _ z => tsUpdate_right_comm z x y) none
  · intro s d lo hi hs
    rw [processDoc_time_range]
    cases hdt : docTimestamp cfg tsf d with
    | none => exact ⟨lo, hi, hs, le_refl lo, le_refl hi⟩
    | some ts =>
      refine ⟨min ts lo, max ts hi, ?_, min_le_right ts lo, le_max_right ts hi⟩
      rw [hs]
      rfl

/-- Witness for C6: timestamps 5, 1, 9 observed in that order (from the
sample config, which timestamps a document with its byte length) give the
range `[1, 9]`. -/
theorem time_range_is_min_max_witness :
    (["aaaaa", "b", "ccccccccc"].foldl
        (processDoc sampleCfg (some 0) benignEnv)
        (IndexedSplit.new_in_dir "my-index")).time_range = some (1, 9) :=
  (time_range_is_min_max sampleCfg (some 0) benignEnv
      (IndexedSplit.new_in_dir "my-index") ["aaaaa", "b", "ccccccccc"]
      rfl).2.1 1 9 (by decide) (by decide)

/-- Claim C7: the loop adds each raw payload's byte length to
`size_in_bytes` before parsing and unconditionally, so a batch of n
documents — malformed ones included — grows the split's size by exactly the
sum of all n payload sizes (in u64 arithmetic; exactly, absent overflow). -/
theorem size_in_bytes_adds_all_payloads (cfg : IndexConfig)
    (tsf : Option Field) (env : Env) (split : IndexedSplit)
    (docs : List String) (h : split.size_in_bytes < 2 ^ 64) :
    (docs.foldl (processDoc cfg tsf env) split).size_in_bytes =
      (split.size_in_bytes + (docs.map String.utf8ByteSize).sum) % 2 ^ 64
    ∧ (split.size_in_bytes + (docs.map String.utf8ByteSize).sum < 2 ^ 64 →
        (docs.foldl (processDoc cfg tsf env) split).size_in_bytes =
          split.size_in_bytes + (docs.map String.utf8ByteSize).sum) := by
  have h1 := foldl_processDoc_size cfg tsf env docs split h
  exact ⟨h1, fun h2 => by rw [h1, Nat.mod_eq_of_lt h2]⟩

/-- Witness for C7: payloads of sizes 2, 3 and 1, the middle one malformed
("bad" under the sample config), grow a fresh split's size to 6. -/
theorem size_in_bytes_adds_all_payloads_witness :
    (["ab", "bad", "c"].foldl (processDoc sampleCfg (some 0) benignEnv)
        (IndexedSplit.new_in_dir "my-index")).size_in_bytes = 6
    ∧ sampleCfg.doc_from_json "bad" = Except.error "invalid json document" := by
  have h := (size_in_bytes_adds_all_payloads sampleCfg (some 0) benignEnv
      (IndexedSplit.new_in_dir "my-index") ["ab", "bad", "c"]
      (by decide)).2 (by decide)
  exact ⟨by simpa using h, rfl⟩

/-- Claim C9: given that a current split exists, `process_message` returns
an error exactly when the armed deadline has elapsed, triggering the flush,
and the downstream send fails because the sink is disconnected; parse
failures in the batch never produce an error (the quantification over the
batch is unrestricted and the condition does not mention it). -/
theorem send_failure_is_only_error (idx : Indexer) (env : Env)
    (batch : RawDocBatch) (h : idx.current_split_opt.isSome = true) :
    (∃ e, (idx.process_message env batch).result = Except.error e) ↔
      (∃ d, idx.next_commit_deadline_opt = some d ∧ d ≤ env.now
        ∧ env.sink_closed = true) := by
  obtain ⟨s0, hs0⟩ := Option.isSome_iff_exists.mp h
  have h1 := indexed_split_of_isSome idx env h
  simp only [Indexer.process_message, h1, hs0]
  simp only [commitIfDeadline]
  cases hd : idx.next_commit_deadline_opt with
  | none => simp
  | some dl =>
    by_cases hnd : env.now ≥ dl
    · cases hb : env.sink_closed with
      | true => simp [hnd, hb, Indexer.send_to_packager]
      | false => simp [hnd, hb, Indexer.send_to_packager]
    · simp only [if_neg hnd]
      constructor
      · rintro ⟨e, he⟩
        cases he
      · rintro ⟨d, hdd, hle, hcl⟩
        rw [Option.some_inj] at hdd
        omega

/-- Witness for C9: with a split present, an elapsed deadline and a closed
sink, processing a batch reports an error. -/
theorem send_failure_is_only_error_witness :
    ∃ e, (Indexer.process_message
      { Indexer.try_new "my-index" sampleCfg 0 with
          current_split_opt := some (IndexedSplit.new_in_dir "my-index"),
          next_commit_deadline_opt := some 0 }
      { benignEnv with sink_closed := true } ⟨["ab"]⟩).result
        = Except.error e :=
  (send_failure_is_only_error
    { Indexer.try_new "my-index" sampleCfg 0 with
        current_split_opt := some (IndexedSplit.new_in_dir "my-index"),
        next_commit_deadline_opt := some 0 }
    { benignEnv with sink_closed := true } ⟨["ab"]⟩ rfl).mpr
    ⟨0, rfl, Nat.le_refl 0, rfl⟩

end Quickwit
